import Mathlib

/-!
Verification development for `robotpy_build/wrapper.py`.

The Python source is shallowly embedded: the `Wrapper` class becomes a
structure, its methods become Lean functions, and the file system touched by
`on_build_dl` / `on_build_gen` is modelled as a finite map from path strings
to file contents.  External collaborators (the package registry lookup, the
archive downloader, the header-to-source code generator) are modelled from the
specification because their code is not part of this source file.
-/

set_option autoImplicit false

namespace RobotpyBuild

/-- Platform description, mirroring the `setup.platform` object consumed by
`wrapper.py` (fields `os`, `arch`, `libprefix`, `libext`).  The `libprefix`
attribute of the source is named `libpre` here. -/
structure Platform where
  os : String
  arch : String
  libpre : String
  libext : String
deriving DecidableEq

/-- A resolved package descriptor as exposed through the `pkgcfg` interface
(`get_include_dirs`, `get_library_dirs`, `get_library_names`, `import_name`).
An absent `import_name` (Python `None` or empty) is modelled as `""`. -/
structure PkgCfg where
  import_name : String
  include_dirs : List String
  library_dirs : List String
  library_names : List String
deriving DecidableEq

/-- The process-wide package registry: a name-keyed association list. -/
def Registry : Type := List (String × PkgCfg)

/-- The per-package wrapper configuration (`wrapcfg` in the source).
`generate` is a list of manifest dictionaries, each an ordered list of
(module name, header path) pairs; `libexts` is the per-platform extension
override mapping; an absent `generation_data` is `none`. -/
structure WrapCfg where
  name : String
  artname : String
  baseurl : String
  version : String
  libs : List String
  libexts : List (String × String)
  depends : List String
  sources : List String
  generate : List (List (String × String))
  generation_data : Option String
  extra_headers : List String
deriving DecidableEq

/-- The build descriptor (`setuptools.Extension`): the fields of interest to
`wrapper.py` (the constant `language="c++"` argument is omitted). -/
structure Extension where
  name : String
  sources : List String
  include_dirs : List String
  library_dirs : List String
  libraries : List String
deriving DecidableEq

/-- The `Wrapper` object state after `__init__`. -/
structure Wrapper where
  name : String
  import_name : String
  setup_root : String
  root : String
  cfg : WrapCfg
  platform : Platform
  pkgcfg : Registry
  extension : Option Extension

/-- The relevant slice of the `setup` object handed to `Wrapper.__init__`:
its root, platform, registry, and the `robotpybuild` entry-point list inside
`setup_kwargs["entry_points"]`. -/
structure SetupData where
  root : String
  platform : Platform
  pkgcfg : Registry
  rpybuild_entry_points : List String

/-- Modelled from the spec: the registry lookup interface
`get_package(name) -> PackageDescriptor`, which "fails with NotFound when
absent" (spec section 6).  The implementation of `setup.pkgcfg.get_pkg` is not
part of `wrapper.py`. -/
def get_pkg (reg : Registry) (n : String) : Except String PkgCfg :=
  match List.lookup n reg with
  | some p => Except.ok p
  | none => Except.error ("cannot find package " ++ n)

/-- `Wrapper.get_include_dirs`. -/
def get_include_dirs (w : Wrapper) : List String :=
  [w.root ++ "/include"]

/-- `Wrapper.get_library_dirs`. -/
def get_library_dirs (w : Wrapper) : List String :=
  [w.root ++ "/lib"]

/-- `Wrapper.get_library_names`. -/
def get_library_names (w : Wrapper) : List String :=
  [w.cfg.name]

/-- The dependency-walking loop shared by `_all_includes`,
`_all_library_dirs` and `_all_library_names`: starting from an accumulator,
extend it with `f dep` for each declared dependency in declaration order,
failing on the first dependency missing from the registry. -/
def dep_fold (reg : Registry) (f : PkgCfg → List String) (acc : List String) :
    List String → Except String (List String)
  | [] => Except.ok acc
  | d :: ds =>
    match get_pkg reg d with
    | Except.error e => Except.error e
    | Except.ok p => dep_fold reg f (acc ++ f p) ds

/-- `Wrapper._all_includes(include_rpyb)`: own include dir, then each direct
dependency's include dirs in declaration order, then — exactly when the
boolean toggle is set — the include dirs of the "robotpy-build" runtime
support package. -/
def all_includes (w : Wrapper) (include_rpyb : Bool) : Except String (List String) :=
  match dep_fold w.pkgcfg PkgCfg.include_dirs (get_include_dirs w) w.cfg.depends with
  | Except.error e => Except.error e
  | Except.ok includes =>
    if include_rpyb then
      match get_pkg w.pkgcfg "robotpy-build" with
      | Except.error e => Except.error e
      | Except.ok p => Except.ok (includes ++ p.include_dirs)
    else
      Except.ok includes

/-- `Wrapper._all_library_dirs`. -/
def all_library_dirs (w : Wrapper) : Except String (List String) :=
  match dep_fold w.pkgcfg PkgCfg.library_dirs (get_library_dirs w) w.cfg.depends with
  | Except.error e => Except.error e
  | Except.ok libs => Except.ok libs

/-- `Wrapper._all_library_names`: declaration-order concatenation, then the
whole sequence reversed. -/
def all_library_names (w : Wrapper) : Except String (List String) :=
  match dep_fold w.pkgcfg PkgCfg.library_names (get_library_names w) w.cfg.depends with
  | Except.error e => Except.error e
  | Except.ok libs => Except.ok libs.reverse

/-- `Wrapper._dl_url(thing)`. -/
def dl_url (cfg : WrapCfg) (thing : String) : String :=
  cfg.baseurl ++ "/" ++ cfg.artname ++ "/" ++ cfg.version ++ "/" ++
    cfg.artname ++ "-" ++ cfg.version ++ "-" ++ thing ++ ".zip"

/-! ## File-system model

Only files are tracked (directories are implicit in path strings); a path maps
to `some content` when the file exists.  Paths are joined with `"/"`, and
`os.path.normpath` on the already-normalized relative paths appearing in the
configuration is modelled as the identity. -/

/-- The file-system state. -/
def FS : Type := String → Option String

/-- `True` when `p` is the path `d` itself or lies strictly below directory
`d`.  Comparison happens on the underlying character lists. -/
def underDir (d p : String) : Bool :=
  p == d || List.isPrefixOf (d.data ++ ['/']) p.data

/-- Write a single file (`open(...).write` / extraction of one archive
member). -/
def writeF (path content : String) (fs : FS) : FS :=
  fun p => if p = path then some content else fs p

/-- `os.unlink` (with errors ignored). -/
def unlinkF (path : String) (fs : FS) : FS :=
  fun p => if p = path then none else fs p

/-- `shutil.rmtree(d, ignore_errors=True)`: every file at or below `d` is
removed. -/
def rmtreeF (d : String) (fs : FS) : FS :=
  fun p => if underDir d p then none else fs p

/-- Write a list of (path, content) pairs in order. -/
def writeAll (files : List (String × String)) (fs : FS) : FS :=
  files.foldl (fun a pc => writeF pc.1 pc.2 a) fs

/-- Modelled from the spec: `download_and_extract_zip(url, to=dst, cache)`
with a directory destination extracts the whole archive tree below `dst`
(spec section 4.2, extraction mode (a)).  The archive obtained from the store
is represented as a list of (member path, content) pairs. -/
def extract_zip_all (zip : List (String × String)) (dst : String) (fs : FS) : FS :=
  writeAll (zip.map (fun e => (dst ++ "/" ++ e.1, e.2))) fs

/-- Modelled from the spec: `download_and_extract_zip(url, to=mapping, cache)`
with a mapping destination extracts only the named archive members to the
mapped destination files (spec section 4.2, extraction mode (b)). -/
def extract_zip_map (zip : List (String × String)) (toMap : List (String × String))
    (fs : FS) : FS :=
  writeAll (toMap.filterMap (fun m => (List.lookup m.1 zip).map (fun c => (m.2, c)))) fs

/-! ## The download step (`on_build_dl`) -/

/-- The platform-decorated library file names computed in `on_build_dl`:
`cfg.libs` (defaulting to `[cfg.name]` when empty), each wrapped as
`{libprefix}{lib}{libext}` with the per-platform extension override from
`cfg.libexts`. -/
def libnames_of (w : Wrapper) : List String :=
  let base := if w.cfg.libs = [] then [w.cfg.name] else w.cfg.libs
  let ext := (List.lookup w.platform.libext w.cfg.libexts).getD w.platform.libext
  base.map (fun l => w.platform.libpre ++ l ++ ext)

/-- The import list baked into the generated `__init__.py`: for each declared
dependency, its registry descriptor's `import_name` when non-empty. -/
def init_imports (w : Wrapper) : Except String (List String) :=
  w.cfg.depends.foldlM
    (fun acc dep =>
      match get_pkg w.pkgcfg dep with
      | Except.error e => Except.error e
      | Except.ok p =>
        Except.ok (if p.import_name = "" then acc else acc ++ [p.import_name]))
    []

/-- The text written by `_write_init_py` (the `inspect.cleandoc` template with
`##IMPORTS##` substituted and one `cdll.LoadLibrary` line per library). -/
def init_py_content (w : Wrapper) (libnames : List String) : Except String String :=
  match init_imports w with
  | Except.error e => Except.error e
  | Except.ok imports =>
    let importsStr :=
      if imports = [] then ""
      else "# runtime dependencies\nimport " ++ String.intercalate "\nimport " imports
    Except.ok
      ("# fmt: off\n# This file is automatically generated, DO NOT EDIT\n\n" ++
       "from os.path import abspath, join, dirname\n_root = abspath(dirname(__file__))\n\n" ++
       importsStr ++
       "\n\nfrom ctypes import cdll\n" ++
       String.join (libnames.map
         (fun l => "_lib = cdll.LoadLibrary(join(_root, \"lib\", \"" ++ l ++ "\"))\n")))

/-- Strip the longest common leading run of two segment lists (helper for
`os.path.relpath`). -/
def dropCommon : List String → List String → List String × List String
  | a :: as, b :: bs => if a = b then dropCommon as bs else (a :: as, b :: bs)
  | as, bs => (as, bs)

/-- `os.path.relpath(path, start)` on normalized relative paths, returned as
the list of path segments. -/
def relpathSegs (path start : String) : List String :=
  let pr := dropCommon (path.splitOn "/") (start.splitOn "/")
  List.replicate pr.2.length ".." ++ pr.1

/-- The text written by `_write_pkgcfg_py` (the `inspect.cleandoc` template
with `##EXTRAINCLUDES##` substituted from `cfg.extra_headers`). -/
def pkgcfg_py_content (w : Wrapper) : String :=
  let pth := String.intercalate "/" (w.import_name.splitOn ".")
  let extra := String.join (w.cfg.extra_headers.map
    (fun h =>
      ", join(_root, \"" ++
        String.intercalate "\", \"" (relpathSegs h pth) ++ "\")"))
  "# fmt: off\n# This file is automatically generated, DO NOT EDIT\n\n" ++
  "from os.path import abspath, join, dirname\n_root = abspath(dirname(__file__))\n\n" ++
  "import_name = \"" ++ w.import_name ++ "\"\n\n" ++
  "def get_include_dirs():\n    return [join(_root, \"include\")" ++ extra ++ "]\n\n" ++
  "def get_library_dirs():\n    return [join(_root, \"lib\")]\n\n" ++
  "def get_library_names():\n    return [\"" ++ w.cfg.name ++ "\"]"

/-- The two archive URLs requested by `on_build_dl`, in request order. -/
def dl_requests (w : Wrapper) : List String :=
  [dl_url w.cfg "headers", dl_url w.cfg (w.platform.os ++ w.platform.arch)]

/-- The file-system effect of `on_build_dl` up to (excluding) the two
generated-descriptor writes: remove `lib/` and `include/`, unlink
`__init__.py` and `pkgcfg.py`, extract the headers archive into `include/`,
then extract the platform libraries into `lib/` via a member mapping. -/
def on_build_dl_fs (dl : String → List (String × String)) (w : Wrapper) (fs : FS) : FS :=
  let libdir := w.root ++ "/lib"
  let incdir := w.root ++ "/include"
  let initpy := w.root ++ "/__init__.py"
  let pkgcfgpy := w.root ++ "/pkgcfg.py"
  let fs1 := rmtreeF libdir fs
  let fs2 := rmtreeF incdir fs1
  let fs3 := unlinkF initpy fs2
  let fs4 := unlinkF pkgcfgpy fs3
  let fs5 := extract_zip_all (dl (dl_url w.cfg "headers")) incdir fs4
  let toMap := (libnames_of w).map
    (fun ln => (w.platform.os ++ "/" ++ w.platform.arch ++ "/shared/" ++ ln,
                libdir ++ "/" ++ ln))
  extract_zip_map (dl (dl_url w.cfg (w.platform.os ++ w.platform.arch))) toMap fs5

/-- `Wrapper.on_build_dl(cache)`.  The downloader is a deterministic function
`dl` from URL to archive contents (the cache keys downloads by URL).  The
result pairs the success flag with the file system reached (also on failure,
which can occur only while computing the `__init__.py` import list). -/
def on_build_dl (dl : String → List (String × String)) (w : Wrapper) (fs : FS) :
    Except String Unit × FS :=
  let fs6 := on_build_dl_fs dl w fs
  match init_py_content w (libnames_of w) with
  | Except.error e => (Except.error e, fs6)
  | Except.ok initc =>
    let fs7 := writeF (w.root ++ "/__init__.py") initc fs6
    let fs8 := writeF (w.root ++ "/pkgcfg.py") (pkgcfg_py_content w) fs7
    (Except.ok (), fs8)

/-! ## The generation step (`on_build_gen`) -/

/-- The generation manifest flattened to (module name, header path) pairs, in
manifest order (`for gen in cfg.generate: for name, header in gen.items()`;
Python dictionaries preserve insertion order). -/
def gen_entries (cfg : WrapCfg) : List (String × String) :=
  cfg.generate.flatten

/-- Just the module names of the manifest, in manifest order. -/
def gen_names (cfg : WrapCfg) : List String :=
  (gen_entries cfg).map Prod.fst

/-- The forward declaration emitted for one module. -/
def init_decl (name : String) : String :=
  "void init_" ++ name ++ "(py::module &m);"

/-- The initializer call emitted for one module. -/
def init_call (name : String) : String :=
  "    init_" ++ name ++ "(m);"

/-- The declaration list built by `_write_module_inl`. -/
def module_inl_decls (cfg : WrapCfg) : List String :=
  (gen_names cfg).map init_decl

/-- The call list built by `_write_module_inl`. -/
def module_inl_calls (cfg : WrapCfg) : List String :=
  (gen_names cfg).map init_call

/-- The `inspect.cleandoc`-processed aggregator template, with `##DECLS##` and
`##CALLS##` substituted by the newline-joined declaration and call lists. -/
def module_inl_content (cfg : WrapCfg) : String :=
  "// This file is autogenerated, DO NOT EDIT\n" ++
  "#include <pybind11/pybind11.h>\n" ++
  "namespace py = pybind11;\n\n" ++
  "// forward declarations\n" ++
  String.intercalate "\n" (module_inl_decls cfg) ++
  "\n\nstatic void initWrapper(py::module &m) \x7b\n" ++
  String.intercalate "\n" (module_inl_calls cfg) ++
  "\n\x7d"

/-- The generated-source destination for one module name:
`join(outdir, f"{name}.cpp")`. -/
def gen_dst (outdir name : String) : String :=
  outdir ++ "/" ++ name ++ ".cpp"

/-- The input handed to the external code generator for one manifest entry:
the header path and its content, the preprocessor include paths
(`_all_includes(False)`), the module name (`vars.mod_fn`), and the raw
data-overlay text. -/
structure GenInput where
  header : String
  header_content : String
  pp_include_paths : List String
  mod_fn : String
  data : String
deriving DecidableEq

/-- Modelled from the spec: one invocation of the external code generator per
manifest entry (spec section 6, `generate(header_path, include_paths,
template, data) -> source_text`), represented as a deterministic function of
the `GenInput`; the fixed template file is implicit in the function.  A header
missing from the file system is a fatal generation error. -/
def run_gens (gs : GenInput → String) (incdir outdir : String) (pp : List String)
    (data : String) : List (String × String) → FS → Except String Unit × FS
  | [], fs => (Except.ok (), fs)
  | e :: es, fs =>
    let hdr := incdir ++ "/" ++ e.2
    match fs hdr with
    | none => (Except.error ("missing header: " ++ hdr), fs)
    | some hc =>
      run_gens gs incdir outdir pp data es
        (writeF (gen_dst outdir e.1) (gs ⟨hdr, hc, pp, e.1, data⟩) fs)

/-- The absolute path of the data-overlay document:
`join(setup_root, normpath(cfg.generation_data))`. -/
def datafile_path (w : Wrapper) : Option String :=
  w.cfg.generation_data.map (fun gd => w.setup_root ++ "/" ++ gd)

/-- Reading the data overlay in `on_build_gen`: no configured path leaves the
empty overlay (`data = {}`); a configured but missing file is fatal.  The
overlay text is kept uninterpreted (its YAML parsing and `HooksDataYaml.validate`
live outside this source file and are treated as part of the generator black
box). -/
def read_generation_data (w : Wrapper) (fs : FS) : Except String String :=
  match datafile_path w with
  | none => Except.ok ""
  | some df =>
    match fs df with
    | none => Except.error ("missing generation data file: " ++ df)
    | some c => Except.ok c

/-- `Wrapper.on_build_gen`.  Mirrors the source order: early return on an
empty `generate` list; compute `_all_includes(False)`; clear and recreate
`gensrc/`; read the data overlay; run the generator once per manifest entry,
collecting generated source paths; write the aggregator `module.hpp`; finally
update the extension descriptor from the full dependency resolution.  The
result pairs the outcome (the updated extension on success) with the file
system reached. -/
def on_build_gen (gs : GenInput → String) (w : Wrapper) (ext : Extension) (fs : FS) :
    Except String Extension × FS :=
  if w.cfg.generate = [] then (Except.ok ext, fs)
  else
    let incdir := w.root ++ "/include"
    let outdir := w.root ++ "/gensrc"
    match all_includes w false with
    | Except.error e => (Except.error e, fs)
    | Except.ok pp =>
      let fs1 := rmtreeF outdir fs
      match read_generation_data w fs1 with
      | Except.error e => (Except.error e, fs1)
      | Except.ok data =>
        match run_gens gs incdir outdir pp data (gen_entries w.cfg) fs1 with
        | (Except.error e, fs2) => (Except.error e, fs2)
        | (Except.ok _, fs2) =>
          let sources :=
            w.cfg.sources ++ (gen_entries w.cfg).map (fun e => gen_dst outdir e.1)
          let fs3 := writeF (outdir ++ "/module.hpp") (module_inl_content w.cfg) fs2
          match all_includes w true with
          | Except.error e => (Except.error e, fs3)
          | Except.ok incs =>
            match all_library_dirs w with
            | Except.error e => (Except.error e, fs3)
            | Except.ok libdirs =>
              match all_library_names w with
              | Except.error e => (Except.error e, fs3)
              | Except.ok libs =>
                (Except.ok (Extension.mk ext.name sources incs libdirs libs), fs3)

/-! ## Construction and the pipeline -/

/-- `if not self.cfg.artname: self.cfg.artname = self.cfg.name`. -/
def apply_artname_default (c : WrapCfg) : WrapCfg :=
  WrapCfg.mk c.name (if c.artname = "" then c.name else c.artname) c.baseurl
    c.version c.libs c.libexts c.depends c.sources c.generate c.generation_data
    c.extra_headers

/-- `Wrapper.__init__(name, wrapcfg, setup)`.  Performs no network or
file-system activity: it only builds in-memory state (the extension descriptor
when there are sources or generation entries, and the entry-point registration
in `setup_kwargs`), and fails when `generate` entries are present without a
`generation_data` path. -/
def Wrapper.init (name : String) (wrapcfg : WrapCfg) (setup : SetupData) :
    Except String (Wrapper × SetupData) :=
  let cfg := apply_artname_default wrapcfg
  let root := setup.root ++ "/" ++ String.intercalate "/" (name.splitOn ".")
  let extension :=
    if cfg.sources ≠ [] ∨ cfg.generate ≠ [] then
      some (Extension.mk (name ++ "." ++ cfg.name) cfg.sources [] [] [])
    else none
  if cfg.generate ≠ [] ∧ cfg.generation_data = none then
    Except.error "generation_data must be specified when generate is specified"
  else
    let entry_point := cfg.name ++ " = " ++ name ++ ".pkgcfg"
    Except.ok
      (Wrapper.mk cfg.name name setup.root root cfg setup.platform setup.pkgcfg extension,
       SetupData.mk setup.root setup.platform setup.pkgcfg
         (setup.rpybuild_entry_points ++ [entry_point]))

/-- The fetch-then-generate pipeline for an already-constructed wrapper:
`on_build_dl` followed by `on_build_gen`. -/
def build_steps (dl : String → List (String × String)) (gs : GenInput → String)
    (w : Wrapper) (ext : Extension) (fs : FS) : Except String Extension × FS :=
  match on_build_dl dl w fs with
  | (Except.error e, fs1) => (Except.error e, fs1)
  | (Except.ok _, fs1) => on_build_gen gs w ext fs1

/-- The whole pipeline from construction: outcome, final file system, and the
list of archive URLs requested from the network, in request order.  A
construction failure leaves the file system untouched and requests nothing. -/
def build_pipeline (dl : String → List (String × String)) (gs : GenInput → String)
    (name : String) (wrapcfg : WrapCfg) (setup : SetupData) (fs : FS) :
    Except String Unit × FS × List String :=
  match Wrapper.init name wrapcfg setup with
  | Except.error e => (Except.error e, fs, [])
  | Except.ok (w, _) =>
    match on_build_dl dl w fs with
    | (Except.error e, fs1) => (Except.error e, fs1, dl_requests w)
    | (Except.ok _, fs1) =>
      match on_build_gen gs w (w.extension.getD (Extension.mk "" [] [] [] [])) fs1 with
      | (Except.error e, fs2) => (Except.error e, fs2, dl_requests w)
      | (Except.ok _, fs2) => (Except.ok (), fs2, dl_requests w)

/-- The paths `on_build_dl` may create or remove for a package: everything
below `lib/` and `include/`, plus the two generated descriptor files. -/
def dl_region (w : Wrapper) (p : String) : Bool :=
  underDir (w.root ++ "/lib") p || underDir (w.root ++ "/include") p ||
  p == w.root ++ "/__init__.py" || p == w.root ++ "/pkgcfg.py"

/-- The paths `on_build_dl` and `on_build_gen` may create or remove for a
package: the download region plus everything below `gensrc/`. -/
def output_region (w : Wrapper) (p : String) : Bool :=
  dl_region w p || underDir (w.root ++ "/gensrc") p

/-- The exact set of files a successful `build_steps` run leaves in the output
region, as a function of the inputs alone: the extracted headers, the selected
platform libraries, the two descriptor files, the generated sources, and the
aggregator. -/
def expected_outputs (dl : String → List (String × String)) (w : Wrapper) : List String :=
  (dl (dl_url w.cfg "headers")).map (fun e => w.root ++ "/include" ++ "/" ++ e.1) ++
  (libnames_of w).map (fun ln => w.root ++ "/lib" ++ "/" ++ ln) ++
  [w.root ++ "/__init__.py", w.root ++ "/pkgcfg.py"] ++
  (gen_names w.cfg).map (gen_dst (w.root ++ "/gensrc")) ++
  [w.root ++ "/gensrc" ++ "/module.hpp"]

/-! ## Concrete instances used by witnesses -/

/-- The registry descriptor of a prebuilt `wpiutil` package. -/
def wpiutilPkg : PkgCfg :=
  ⟨"wpiutil", ["/proj/wpiutil/include"], ["/proj/wpiutil/lib"], ["wpiutil"]⟩

/-- The registry descriptor of the `robotpy-build` runtime support package. -/
def rpybPkg : PkgCfg :=
  ⟨"robotpy_build", ["/rpb/include"], [], []⟩

/-- A registry holding `wpiutil` and `robotpy-build`. -/
def registry0 : Registry :=
  [("wpiutil", wpiutilPkg), ("robotpy-build", rpybPkg)]

/-- A sample platform. -/
def platform0 : Platform :=
  ⟨"linux", "x86-64", "lib", ".so"⟩

/-- Configuration of a `wpimath` package depending on `["wpiutil"]`. -/
def wpimathCfg : WrapCfg :=
  ⟨"wpimath", "wpimath", "https://frcmaven", "2020.1.2", [], [], ["wpiutil"],
   [], [], none, []⟩

/-- The constructed `wpimath` wrapper. -/
def wpimathW : Wrapper :=
  ⟨"wpimath", "wpimath", "/proj", "/proj/wpimath", wpimathCfg, platform0, registry0, none⟩

/-- A wrapper declaring a dependency absent from the registry. -/
def danglingW : Wrapper :=
  ⟨"broken", "broken",  "/proj", "/proj/broken",
   ⟨"broken", "broken", "https://frcmaven", "1", [], [], ["nosuchpkg"], [], [], none, []⟩,
   platform0, registry0, none⟩

/-- A generation manifest with two entries deliberately not in sorted order
(used to observe order preservation). -/
def genCfg0 : WrapCfg :=
  ⟨"demo", "demo", "https://x", "1", [], [], [], [],
   [[("zebra", "z.h")], [("alpha", "a.h")]], some "gen/demo.yml", []⟩

/-- A generator making its output depend on every generator input. -/
def gs0 : GenInput → String :=
  fun g => "// generated module " ++ g.mod_fn ++ "\n"

/-- The empty file system. -/
def fsEmpty : FS := fun _ => none

/-- A downloader returning empty archives. -/
def dl0 : String → List (String × String) := fun _ => []

/-- A build descriptor used as the pre-generation extension state. -/
def extDemo : Extension := ⟨"wpimath.wpimath", [], [], [], []⟩

/-- A configuration with generation entries but no `generation_data` path. -/
def badGenCfg : WrapCfg :=
  ⟨"demo2", "demo2", "https://x", "1", [], [], [], [], [[("m", "m.h")]], none, []⟩

/-- A sample setup object. -/
def setup0 : SetupData := ⟨"/proj", platform0, registry0, []⟩

/-- Configuration of a `wpiutil` package with one explicit source and one
generation entry. -/
def wpiutilCfg : WrapCfg :=
  ⟨"wpiutil", "wpiutil", "https://frcmaven", "2020.1.2", [], [], [],
   ["cpp/main.cpp"], [[("wpiutil", "wpi/StringRef.h")]], some "gen/wpiutil.yml", []⟩

/-- The pre-generation extension descriptor of `wpiutil`. -/
def extWpiutil : Extension := ⟨"wpiutil.wpiutil", ["cpp/main.cpp"], [], [], []⟩

/-- The constructed `wpiutil` wrapper. -/
def wpiutilW : Wrapper :=
  ⟨"wpiutil", "wpiutil", "/proj", "/proj/wpiutil", wpiutilCfg, platform0, registry0,
   some extWpiutil⟩

/-- A file system holding the extracted `wpi/StringRef.h` header and the
data-overlay document. -/
def fsGen : FS := fun p =>
  if p = "/proj/wpiutil/include/wpi/StringRef.h" then some "// stringref header\n"
  else if p = "/proj/gen/wpiutil.yml" then some "---\n"
  else none

/-- A downloader whose headers archive for `wpiutil` holds `wpi/StringRef.h`. -/
def dlH : String → List (String × String) :=
  fun u => if u = dl_url wpiutilCfg "headers"
    then [("wpi/StringRef.h", "// stringref header\n")] else []

/-- The file system left by a full `wpiutil` run with module set
`{wpiutil}`. -/
def fsPrior : FS := (build_steps dlH gs0 wpiutilW extWpiutil fsGen).2

/-- The `wpiutil` configuration with its generation manifest removed (module
set changed to the empty set). -/
def wpiutilNoGenCfg : WrapCfg :=
  ⟨"wpiutil", "wpiutil", "https://frcmaven", "2020.1.2", [], [], [],
   ["cpp/main.cpp"], [], none, []⟩

/-- The wrapper for the manifest-less `wpiutil` configuration. -/
def wpiutilNoGenW : Wrapper :=
  ⟨"wpiutil", "wpiutil", "/proj", "/proj/wpiutil", wpiutilNoGenCfg, platform0, registry0,
   some extWpiutil⟩

/-- A starting file system holding the data overlay plus a leftover file from
an earlier manifest inside `gensrc/`. -/
def fsGenB : FS := fun p =>
  if p = "/proj/gen/wpiutil.yml" then some "---\n"
  else if p = "/proj/wpiutil/gensrc/old.cpp" then some "// stale\n"
  else none

/-! ## Resolver lemmas -/

theorem dep_fold_ok (reg : Registry) (f : PkgCfg → List String) (acc : List String)
    {deps : List String} {pkgs : List PkgCfg}
    (h : List.Forall₂ (fun d p => List.lookup d reg = some p) deps pkgs) :
    dep_fold reg f acc deps = Except.ok (acc ++ (pkgs.map f).flatten) := by
  induction h generalizing acc with
  | nil => simp [dep_fold]
  | cons hd _ ih =>
    simp [dep_fold, get_pkg, hd, ih, List.append_assoc]

theorem dep_fold_err (reg : Registry) (f : PkgCfg → List String) (acc : List String)
    {deps : List String} {d : String}
    (hmem : d ∈ deps) (hnone : List.lookup d reg = none) :
    ∃ e, dep_fold reg f acc deps = Except.error e := by
  induction deps generalizing acc with
  | nil => cases hmem
  | cons a as ih =>
    cases hmem with
    | head => exact ⟨"cannot find package " ++ d, by simp [dep_fold, get_pkg, hnone]⟩
    | tail _ hm =>
      cases hlk : List.lookup a reg with
      | none => exact ⟨"cannot find package " ++ a, by simp [dep_fold, get_pkg, hlk]⟩
      | some p =>
        obtain ⟨e, he⟩ := ih (acc ++ f p) hm
        exact ⟨e, by simp [dep_fold, get_pkg, hlk, he]⟩

/-! ## Claims about the dependency resolver -/

/-- C1: for a package whose direct dependencies resolve in the registry, the
resolved library-name sequence is the reverse of the declaration-order
concatenation of the package's own library name and each dependency's library
names. -/
theorem all_library_names_resolved (w : Wrapper) (pkgs : List PkgCfg)
    (h : List.Forall₂ (fun d p => List.lookup d w.pkgcfg = some p) w.cfg.depends pkgs) :
    all_library_names w =
      Except.ok ((get_library_names w ++ (pkgs.map PkgCfg.library_names).flatten).reverse) := by
  simp [all_library_names, dep_fold_ok _ _ _ h]

theorem all_library_names_resolved_witness :
    all_library_names wpimathW = Except.ok ["wpiutil", "wpimath"] := by
  rw [all_library_names_resolved wpimathW [wpiutilPkg]
    (List.Forall₂.cons (by decide) List.Forall₂.nil)]
  rfl

/-- C2: the single include-dir resolver, toggled by its boolean argument,
returns the package's own include dir, then each direct dependency's include
dirs in declaration order, and appends the `robotpy-build` runtime-support
include dirs last exactly when the toggle is true. -/
theorem all_includes_resolved (w : Wrapper) (b : Bool) (pkgs : List PkgCfg) (rpyb : PkgCfg)
    (h : List.Forall₂ (fun d p => List.lookup d w.pkgcfg = some p) w.cfg.depends pkgs)
    (hr : b = true → List.lookup "robotpy-build" w.pkgcfg = some rpyb) :
    all_includes w b =
      Except.ok (get_include_dirs w ++ (pkgs.map PkgCfg.include_dirs).flatten ++
        (if b then rpyb.include_dirs else [])) := by
  cases b with
  | false => simp [all_includes, dep_fold_ok _ _ _ h]
  | true =>
    simp [all_includes, dep_fold_ok _ _ _ h, get_pkg, hr rfl, List.append_assoc]

theorem all_includes_resolved_witness :
    all_includes wpimathW false =
      Except.ok ["/proj/wpimath/include", "/proj/wpiutil/include"] ∧
    all_includes wpimathW true =
      Except.ok ["/proj/wpimath/include", "/proj/wpiutil/include", "/rpb/include"] := by
  constructor
  · rw [all_includes_resolved wpimathW false [wpiutilPkg] rpybPkg
      (List.Forall₂.cons (by decide) List.Forall₂.nil) (by intro hb; cases hb)]
    rfl
  · rw [all_includes_resolved wpimathW true [wpiutilPkg] rpybPkg
      (List.Forall₂.cons (by decide) List.Forall₂.nil) (by intro hb; decide)]
    rfl

/-- C7: a declared dependency name with no registry entry makes every
resolver (include dirs, library dirs, library names) fail with an
unresolvable-dependency error instead of contributing a silent empty entry. -/
theorem missing_dep_errors (w : Wrapper) (b : Bool) (d : String)
    (hmem : d ∈ w.cfg.depends) (hnone : List.lookup d w.pkgcfg = none) :
    (∃ e, all_includes w b = Except.error e) ∧
    (∃ e, all_library_dirs w = Except.error e) ∧
    (∃ e, all_library_names w = Except.error e) := by
  obtain ⟨e1, h1⟩ := dep_fold_err w.pkgcfg PkgCfg.include_dirs (get_include_dirs w) hmem hnone
  obtain ⟨e2, h2⟩ := dep_fold_err w.pkgcfg PkgCfg.library_dirs (get_library_dirs w) hmem hnone
  obtain ⟨e3, h3⟩ := dep_fold_err w.pkgcfg PkgCfg.library_names (get_library_names w) hmem hnone
  exact ⟨⟨e1, by simp [all_includes, h1]⟩, ⟨e2, by simp [all_library_dirs, h2]⟩,
    ⟨e3, by simp [all_library_names, h3]⟩⟩

theorem missing_dep_errors_witness :
    (∃ e, all_includes danglingW true = Except.error e) ∧
    (∃ e, all_library_dirs danglingW = Except.error e) ∧
    (∃ e, all_library_names danglingW = Except.error e) :=
  missing_dep_errors danglingW true "nosuchpkg" (by decide) (by decide)

/-- C8: the constructed archive URL is exactly
`{base}/{artname}/{version}/{artname}-{version}-{thing}.zip`. -/
theorem dl_url_canonical (cfg : WrapCfg) (thing : String) :
    dl_url cfg thing =
      cfg.baseurl ++ "/" ++ cfg.artname ++ "/" ++ cfg.version ++ "/" ++
        cfg.artname ++ "-" ++ cfg.version ++ "-" ++ thing ++ ".zip" :=
  rfl

/-! ## Claims about the aggregator -/

theorem str_sandwich_inj (pre post : String) :
    Function.Injective (fun n => pre ++ n ++ post) := by
  intro a b h
  have h2 := congrArg String.data h
  simp only [String.data_append] at h2
  exact String.ext (List.append_cancel_left (List.append_cancel_right h2))

theorem init_decl_injective : Function.Injective init_decl :=
  str_sandwich_inj "void init_" "(py::module &m);"

theorem init_call_injective : Function.Injective init_call :=
  str_sandwich_inj "    init_" "(m);"

/-- C3: for a manifest with unique module names, the aggregator emits exactly
one forward declaration and exactly one initializer call per module name, the
declaration and call sequences are each in exact manifest order, and they are
spliced into the single `initWrapper` translation unit in that order. -/
theorem module_inl_aggregator (cfg : WrapCfg) (h : (gen_names cfg).Nodup) :
    module_inl_decls cfg = (gen_names cfg).map init_decl ∧
    module_inl_calls cfg = (gen_names cfg).map init_call ∧
    (∀ n ∈ gen_names cfg,
      (module_inl_decls cfg).count (init_decl n) = 1 ∧
      (module_inl_calls cfg).count (init_call n) = 1) ∧
    module_inl_content cfg =
      "// This file is autogenerated, DO NOT EDIT\n" ++
      "#include <pybind11/pybind11.h>\n" ++
      "namespace py = pybind11;\n\n" ++
      "// forward declarations\n" ++
      String.intercalate "\n" (module_inl_decls cfg) ++
      "\n\nstatic void initWrapper(py::module &m) \x7b\n" ++
      String.intercalate "\n" (module_inl_calls cfg) ++
      "\n\x7d" := by
  refine ⟨rfl, rfl, ?_, rfl⟩
  intro n hn
  constructor
  · rw [module_inl_decls, List.count_map_of_injective _ _ init_decl_injective]
    exact List.count_eq_one_of_mem h hn
  · rw [module_inl_calls, List.count_map_of_injective _ _ init_call_injective]
    exact List.count_eq_one_of_mem h hn

theorem module_inl_aggregator_witness :
    module_inl_decls genCfg0 =
      ["void init_zebra(py::module &m);", "void init_alpha(py::module &m);"] ∧
    module_inl_calls genCfg0 = ["    init_zebra(m);", "    init_alpha(m);"] ∧
    (module_inl_decls genCfg0).count (init_decl "zebra") = 1 ∧
    (module_inl_calls genCfg0).count (init_call "alpha") = 1 := by
  have h := module_inl_aggregator genCfg0 (by decide)
  exact ⟨rfl, rfl, (h.2.2.1 "zebra" (by decide)).1, (h.2.2.1 "alpha" (by decide)).2⟩

/-! ## File-system lemmas -/

theorem data_slash_append (d s : String) :
    (d ++ "/" ++ s).data = d.data ++ ['/'] ++ s.data := by
  simp only [String.data_append]

theorem underDir_join (d s : String) : underDir d (d ++ "/" ++ s) = true := by
  have h : (d.data ++ ['/']) <+: (d ++ "/" ++ s).data := by
    rw [data_slash_append]
    exact ⟨s.data, by simp⟩
  simp [underDir, List.isPrefixOf_iff_prefix.mpr h]

theorem underDir_gen_dst (outdir n : String) :
    underDir outdir (gen_dst outdir n) = true := by
  have h : gen_dst outdir n = outdir ++ "/" ++ (n ++ ".cpp") := by
    simp [gen_dst, String.append_assoc]
  rw [h]
  exact underDir_join _ _

theorem underDir_module_hpp (outdir : String) :
    underDir outdir (outdir ++ "/module.hpp") = true := by
  have h : outdir ++ "/module.hpp" = outdir ++ "/" ++ "module.hpp" := by
    rw [String.append_assoc]
    exact congrArg (outdir ++ ·) (by decide)
  rw [h]
  exact underDir_join _ _

/-- Any path at or below a directory `r ++ s` has character data
`r.data ++ s.data ++ tail` for some tail. -/
theorem underDir_data_shape {r s p : String} (h : underDir (r ++ s) p = true) :
    ∃ tail, p.data = r.data ++ s.data ++ tail := by
  rw [underDir, Bool.or_eq_true, beq_iff_eq] at h
  cases h with
  | inl h1 =>
    exact ⟨[], by simp [h1, String.data_append]⟩
  | inr h2 =>
    obtain ⟨t, ht⟩ := List.isPrefixOf_iff_prefix.mp h2
    refine ⟨'/' :: t, ?_⟩
    rw [← ht]
    simp [String.data_append, List.append_assoc]

/-- A path whose data continues `r.data` with `'/' :: c :: _` is not the path
`r ++ s` when `s` starts with `'/'` followed by a character other than `c`. -/
theorem beq_second_char_ne {r s p : String} {c c2 : Char} {tail srest : List Char}
    (hp : p.data = r.data ++ ('/' :: c :: tail))
    (hs : s.data = '/' :: c2 :: srest) (hne : c2 ≠ c) :
    (p == r ++ s) = false := by
  rw [beq_eq_false_iff_ne]
  intro he
  have hd : p.data = r.data ++ s.data := by simp [he, String.data_append]
  rw [hp, hs] at hd
  have h3 := List.append_cancel_left hd
  injection h3 with h4 h5
  injection h5 with h6 h7
  exact hne h6.symm

/-- A path whose data continues `r.data` with `'/' :: c :: _` is not at or
below `r ++ s` when `s` starts with `'/'` followed by a character other than
`c`. -/
theorem underDir_second_char_ne {r s p : String} {c c2 : Char} {tail srest : List Char}
    (hp : p.data = r.data ++ ('/' :: c :: tail))
    (hs : s.data = '/' :: c2 :: srest) (hne : c2 ≠ c) :
    underDir (r ++ s) p = false := by
  rw [underDir, Bool.or_eq_false_iff]
  refine ⟨beq_second_char_ne hp hs hne, ?_⟩
  rw [← Bool.not_eq_true]
  intro h2
  have hpre := List.isPrefixOf_iff_prefix.mp h2
  rw [String.data_append, hs, hp] at hpre
  have hps : ('/' :: c2 :: srest ++ ['/']) <+: ('/' :: c :: tail) := by
    rw [← List.prefix_append_right_inj r.data]
    simpa [List.append_assoc] using hpre
  obtain ⟨-, hps2⟩ := List.cons_prefix_cons.mp hps
  obtain ⟨hc, -⟩ := List.cons_prefix_cons.mp hps2
  exact hne hc

theorem shape_of_lib {r p : String} (h : underDir (r ++ "/lib") p = true) :
    ∃ tail, p.data = r.data ++ ('/' :: 'l' :: tail) := by
  obtain ⟨t, ht⟩ := underDir_data_shape h
  refine ⟨'i' :: 'b' :: t, ?_⟩
  have hd : ("/lib" : String).data = ['/', 'l', 'i', 'b'] := by decide
  rw [ht, hd, List.append_assoc]
  rfl

theorem shape_of_include {r p : String} (h : underDir (r ++ "/include") p = true) :
    ∃ tail, p.data = r.data ++ ('/' :: 'i' :: tail) := by
  obtain ⟨t, ht⟩ := underDir_data_shape h
  refine ⟨'n' :: 'c' :: 'l' :: 'u' :: 'd' :: 'e' :: t, ?_⟩
  have hd : ("/include" : String).data = ['/', 'i', 'n', 'c', 'l', 'u', 'd', 'e'] := by decide
  rw [ht, hd, List.append_assoc]
  rfl

theorem shape_of_gensrc {r p : String} (h : underDir (r ++ "/gensrc") p = true) :
    ∃ tail, p.data = r.data ++ ('/' :: 'g' :: tail) := by
  obtain ⟨t, ht⟩ := underDir_data_shape h
  refine ⟨'e' :: 'n' :: 's' :: 'r' :: 'c' :: t, ?_⟩
  have hd : ("/gensrc" : String).data = ['/', 'g', 'e', 'n', 's', 'r', 'c'] := by decide
  rw [ht, hd, List.append_assoc]
  rfl

theorem shape_of_initpy {r p : String} (h : p = r ++ "/__init__.py") :
    ∃ tail, p.data = r.data ++ ('/' :: '_' :: tail) :=
  ⟨'_' :: 'i' :: 'n' :: 'i' :: 't' :: '_' :: '_' :: '.' :: 'p' :: 'y' :: [],
   by rw [h, String.data_append]⟩

theorem shape_of_pkgcfgpy {r p : String} (h : p = r ++ "/pkgcfg.py") :
    ∃ tail, p.data = r.data ++ ('/' :: 'p' :: tail) :=
  ⟨'k' :: 'g' :: 'c' :: 'f' :: 'g' :: '.' :: 'p' :: 'y' :: [],
   by rw [h, String.data_append]⟩

/-- The `lib/`, `include/`, `__init__.py` and `pkgcfg.py` paths of a package
all lie outside its `gensrc/` tree. -/
theorem not_gensrc_of_shape {r p : String} {c : Char} {tail : List Char}
    (hp : p.data = r.data ++ ('/' :: c :: tail)) (hne : c ≠ 'g') :
    underDir (r ++ "/gensrc") p = false :=
  underDir_second_char_ne hp rfl (by intro he; exact hne (he.symm))

/-! ## `writeF` / `writeAll` lemmas -/

theorem writeF_at (path c : String) (fs : FS) : writeF path c fs path = some c := by
  simp [writeF]

theorem writeF_ne {p path : String} (c : String) (fs : FS) (h : p ≠ path) :
    writeF path c fs p = fs p := by
  simp [writeF, h]

theorem writeF_isSome_mono {p : String} (path c : String) (fs : FS)
    (h : (fs p).isSome) : (writeF path c fs p).isSome := by
  by_cases hp : p = path <;> simp [writeF, hp, h]

theorem writeAll_cons (a : String × String) (files : List (String × String)) (fs : FS) :
    writeAll (a :: files) fs = writeAll files (writeF a.1 a.2 fs) := rfl

theorem writeAll_not_mem {files : List (String × String)} {p : String} (fs : FS)
    (h : p ∉ files.map Prod.fst) : writeAll files fs p = fs p := by
  induction files generalizing fs with
  | nil => rfl
  | cons a as ih =>
    simp only [List.map_cons, List.mem_cons, not_or] at h
    rw [writeAll_cons, ih _ h.2, writeF_ne _ _ h.1]

theorem writeAll_indep {files : List (String × String)} {p : String}
    (h : p ∈ files.map Prod.fst) (fs1 fs2 : FS) :
    writeAll files fs1 p = writeAll files fs2 p := by
  induction files generalizing fs1 fs2 with
  | nil => simp at h
  | cons a as ih =>
    by_cases hm : p ∈ as.map Prod.fst
    · rw [writeAll_cons, writeAll_cons]
      exact ih hm _ _
    · have hp : p = a.1 := by
        simp only [List.map_cons, List.mem_cons] at h
        tauto
      rw [writeAll_cons, writeAll_cons, writeAll_not_mem _ hm, writeAll_not_mem _ hm,
        hp, writeF_at, writeF_at]

theorem writeAll_isSome_mono {p : String} (files : List (String × String)) (fs : FS)
    (h : (fs p).isSome) : (writeAll files fs p).isSome := by
  induction files generalizing fs with
  | nil => exact h
  | cons a as ih =>
    rw [writeAll_cons]
    exact ih _ (writeF_isSome_mono _ _ _ h)

theorem writeAll_isSome {files : List (String × String)} {p : String}
    (h : p ∈ files.map Prod.fst) (fs : FS) : (writeAll files fs p).isSome := by
  induction files generalizing fs with
  | nil => simp at h
  | cons a as ih =>
    by_cases hm : p ∈ as.map Prod.fst
    · rw [writeAll_cons]
      exact ih hm _
    · have hp : p = a.1 := by
        simp only [List.map_cons, List.mem_cons] at h
        tauto
      rw [writeAll_cons, writeAll_not_mem _ hm, hp, writeF_at]
      rfl

theorem writeAll_isSome_inv {files : List (String × String)} {p : String} {fs : FS}
    (h : (writeAll files fs p).isSome) : p ∈ files.map Prod.fst ∨ (fs p).isSome := by
  induction files generalizing fs with
  | nil => exact Or.inr h
  | cons a as ih =>
    rw [writeAll_cons] at h
    rcases ih h with hm | hs
    · exact Or.inl (by simp [hm])
    · by_cases hp : p = a.1
      · exact Or.inl (by simp [hp])
      · rw [writeF_ne _ _ hp] at hs
        exact Or.inr hs

/-! ## `run_gens` lemmas -/

theorem run_gens_frame {gs : GenInput → String} {incdir outdir : String}
    {pp : List String} {data : String} (es : List (String × String)) (fs : FS) {p : String}
    (h : p ∉ es.map (fun e => gen_dst outdir e.1)) :
    (run_gens gs incdir outdir pp data es fs).2 p = fs p := by
  induction es generalizing fs with
  | nil => rfl
  | cons e es ih =>
    simp only [List.map_cons, List.mem_cons, not_or] at h
    cases hh : fs (incdir ++ "/" ++ e.2) with
    | none => simp [run_gens, hh]
    | some hc =>
      simp only [run_gens, hh]
      rw [ih _ h.2, writeF_ne _ _ h.1]

theorem run_gens_isSome_mono {gs : GenInput → String} {incdir outdir : String}
    {pp : List String} {data : String} (es : List (String × String)) (fs : FS) {p : String}
    (h : (fs p).isSome) : ((run_gens gs incdir outdir pp data es fs).2 p).isSome := by
  induction es generalizing fs with
  | nil => exact h
  | cons e es ih =>
    cases hh : fs (incdir ++ "/" ++ e.2) with
    | none => simpa [run_gens, hh] using h
    | some hc =>
      simp only [run_gens, hh]
      exact ih _ (writeF_isSome_mono _ _ _ h)

theorem run_gens_ok_isSome {gs : GenInput → String} {incdir outdir : String}
    {pp : List String} {data : String} {es : List (String × String)} {fs : FS} {p : String}
    (hok : (run_gens gs incdir outdir pp data es fs).1 = Except.ok ())
    (h : p ∈ es.map (fun e => gen_dst outdir e.1)) :
    ((run_gens gs incdir outdir pp data es fs).2 p).isSome := by
  induction es generalizing fs with
  | nil => simp at h
  | cons e es ih =>
    cases hh : fs (incdir ++ "/" ++ e.2) with
    | none => simp [run_gens, hh] at hok
    | some hc =>
      simp only [run_gens, hh] at hok ⊢
      simp only [List.map_cons, List.mem_cons] at h
      rcases h with hp | hm
      · exact run_gens_isSome_mono _ _ (by rw [hp, writeF_at]; rfl)
      · exact ih hok hm

theorem run_gens_isSome_inv {gs : GenInput → String} {incdir outdir : String}
    {pp : List String} {data : String} {es : List (String × String)} {fs : FS} {p : String}
    (h : ((run_gens gs incdir outdir pp data es fs).2 p).isSome) :
    p ∈ es.map (fun e => gen_dst outdir e.1) ∨ (fs p).isSome := by
  induction es generalizing fs with
  | nil => exact Or.inr h
  | cons e es ih =>
    cases hh : fs (incdir ++ "/" ++ e.2) with
    | none =>
      simp only [run_gens, hh] at h
      exact Or.inr h
    | some hc =>
      simp only [run_gens, hh] at h
      rcases ih h with hm | hs
      · exact Or.inl (by simp [hm])
      · by_cases hp : p = gen_dst outdir e.1
        · exact Or.inl (by simp [hp])
        · rw [writeF_ne _ _ hp] at hs
          exact Or.inr hs

/-! ## Claims about the empty-manifest fast path and construction errors -/

/-- C10: with no generation entries, `on_build_gen` returns immediately: the
file system is returned unchanged (nothing under `gensrc/` is removed or
created and the data-overlay file is not read — the result does not depend on
the file system at all), and the extension descriptor is returned with all its
fields unmodified. -/
theorem on_build_gen_no_generate (gs : GenInput → String) (w : Wrapper) (ext : Extension)
    (fs : FS) (h : w.cfg.generate = []) :
    on_build_gen gs w ext fs = (Except.ok ext, fs) := by
  simp [on_build_gen, h]

theorem on_build_gen_no_generate_witness :
    on_build_gen gs0 wpimathW extDemo fsEmpty = (Except.ok extDemo, fsEmpty) :=
  on_build_gen_no_generate gs0 wpimathW extDemo fsEmpty rfl

/-- C6: a configuration with a non-empty `generate` list but no
`generation_data` path makes construction fail with the configuration error,
and the pipeline run on such a configuration performs no network request and
leaves the file system untouched. -/
theorem init_requires_generation_data (name : String) (wrapcfg : WrapCfg)
    (setup : SetupData) (h1 : wrapcfg.generate ≠ []) (h2 : wrapcfg.generation_data = none) :
    Wrapper.init name wrapcfg setup =
      Except.error "generation_data must be specified when generate is specified" ∧
    ∀ (dl : String → List (String × String)) (gs : GenInput → String) (fs : FS),
      build_pipeline dl gs name wrapcfg setup fs =
        (Except.error "generation_data must be specified when generate is specified",
         fs, []) := by
  have hg : (apply_artname_default wrapcfg).generate = wrapcfg.generate := rfl
  have hd : (apply_artname_default wrapcfg).generation_data = wrapcfg.generation_data := rfl
  have hinit : Wrapper.init name wrapcfg setup =
      Except.error "generation_data must be specified when generate is specified" := by
    simp only [Wrapper.init]
    rw [if_pos ⟨hg ▸ h1, hd ▸ h2⟩]
  exact ⟨hinit, fun dl gs fs => by simp [build_pipeline, hinit]⟩

theorem init_requires_generation_data_witness :
    Wrapper.init "demo2" badGenCfg setup0 =
      Except.error "generation_data must be specified when generate is specified" ∧
    build_pipeline dl0 gs0 "demo2" badGenCfg setup0 fsEmpty =
      (Except.error "generation_data must be specified when generate is specified",
       fsEmpty, []) := by
  have h := init_requires_generation_data "demo2" badGenCfg setup0 (by decide) rfl
  exact ⟨h.1, h.2 dl0 gs0 fsEmpty⟩

/-! ## Claims about descriptor assembly after generation -/

/-- C4 as stated is false: for the concrete `wpiutil` package the source list
after generation is the explicit sources plus the generated sources only — the
aggregator's file is not appended to it. -/
theorem on_build_gen_sources_counterexample :
    Except.map Extension.sources (on_build_gen gs0 wpiutilW extWpiutil fsGen).1 =
      Except.ok ["cpp/main.cpp", "/proj/wpiutil/gensrc/wpiutil.cpp"] ∧
    (["cpp/main.cpp", "/proj/wpiutil/gensrc/wpiutil.cpp"] : List String) ≠
      ["cpp/main.cpp", "/proj/wpiutil/gensrc/wpiutil.cpp",
       "/proj/wpiutil/gensrc/module.hpp"] :=
  ⟨rfl, by decide⟩

/-- C4 (amended): after a successful generation step the descriptor's source
list equals the original explicit sources followed by one generated source per
manifest entry; the aggregator is written as the include file `module.hpp` in
the generation output directory but is not appended to the source list. -/
theorem on_build_gen_sources (gs : GenInput → String) (w : Wrapper) (ext : Extension)
    (fs : FS) (ext' : Extension) (fs' : FS)
    (hne : w.cfg.generate ≠ [])
    (h : on_build_gen gs w ext fs = (Except.ok ext', fs')) :
    ext'.sources = w.cfg.sources ++
      (gen_entries w.cfg).map (fun e => gen_dst (w.root ++ "/gensrc") e.1) ∧
    fs' (w.root ++ "/gensrc" ++ "/module.hpp") = some (module_inl_content w.cfg) := by
  simp only [on_build_gen] at h
  rw [if_neg hne] at h
  split at h
  · simp at h
  · split at h
    · simp at h
    · split at h
      · simp at h
      · split at h
        · simp at h
        · split at h
          · simp at h
          · split at h
            · simp at h
            · simp only [Prod.mk.injEq, Except.ok.injEq] at h
              obtain ⟨hext, hfs⟩ := h
              subst hext
              subst hfs
              exact ⟨rfl, writeF_at _ _ _⟩

theorem on_build_gen_sources_witness :
    (Extension.mk "wpiutil.wpiutil"
        ["cpp/main.cpp", "/proj/wpiutil/gensrc/wpiutil.cpp"]
        ["/proj/wpiutil/include", "/rpb/include"] ["/proj/wpiutil/lib"]
        ["wpiutil"]).sources =
      wpiutilW.cfg.sources ++
        (gen_entries wpiutilW.cfg).map (fun e => gen_dst (wpiutilW.root ++ "/gensrc") e.1) ∧
    (on_build_gen gs0 wpiutilW extWpiutil fsGen).2
        (wpiutilW.root ++ "/gensrc" ++ "/module.hpp") =
      some (module_inl_content wpiutilW.cfg) := by
  have h1 : (on_build_gen gs0 wpiutilW extWpiutil fsGen).1 =
      Except.ok (Extension.mk "wpiutil.wpiutil"
        ["cpp/main.cpp", "/proj/wpiutil/gensrc/wpiutil.cpp"]
        ["/proj/wpiutil/include", "/rpb/include"] ["/proj/wpiutil/lib"]
        ["wpiutil"]) := rfl
  have h : on_build_gen gs0 wpiutilW extWpiutil fsGen =
      (Except.ok (Extension.mk "wpiutil.wpiutil"
        ["cpp/main.cpp", "/proj/wpiutil/gensrc/wpiutil.cpp"]
        ["/proj/wpiutil/include", "/rpb/include"] ["/proj/wpiutil/lib"]
        ["wpiutil"]), (on_build_gen gs0 wpiutilW extWpiutil fsGen).2) := by
    rw [← h1]
  exact on_build_gen_sources gs0 wpiutilW extWpiutil fsGen _ _ (by decide) h

/-! ## Claims about the generation output directory -/

theorem gen_dst_injective (outdir : String) : Function.Injective (gen_dst outdir) :=
  str_sandwich_inj (outdir ++ "/") ".cpp"

theorem gen_names_map_dst (cfg : WrapCfg) (outdir : String) :
    (gen_names cfg).map (gen_dst outdir) =
      (gen_entries cfg).map (fun e => gen_dst outdir e.1) := by
  simp [gen_names, List.map_map]

/-- C9: after a successful generation step on a non-empty manifest with
unique module names, the `gensrc/` tree contains exactly the generated
`<module-name>.cpp` files (one distinct path per manifest entry) plus the
aggregator `module.hpp`, and nothing else — in particular nothing surviving
from an earlier manifest, because the directory is cleared before
generation. -/
theorem on_build_gen_outdir_files (gs : GenInput → String) (w : Wrapper) (ext : Extension)
    (fs : FS) (ext' : Extension) (fs' : FS)
    (hne : w.cfg.generate ≠ [])
    (hnd : (gen_names w.cfg).Nodup)
    (h : on_build_gen gs w ext fs = (Except.ok ext', fs')) :
    (∀ p, underDir (w.root ++ "/gensrc") p = true →
      ((fs' p).isSome ↔
        p ∈ (gen_names w.cfg).map (gen_dst (w.root ++ "/gensrc")) ++
            [w.root ++ "/gensrc" ++ "/module.hpp"])) ∧
    ((gen_names w.cfg).map (gen_dst (w.root ++ "/gensrc"))).Nodup := by
  refine ⟨?_, hnd.map (gen_dst_injective _)⟩
  intro p hp
  simp only [on_build_gen] at h
  rw [if_neg hne] at h
  split at h
  · simp at h
  · rename_i pp hai
    split at h
    · simp at h
    · rename_i data hrd
      split at h
      · simp at h
      · rename_i u fs2 hrg
        split at h
        · simp at h
        · rename_i incs hai2
          split at h
          · simp at h
          · rename_i libdirs hld
            split at h
            · simp at h
            · rename_i libs hln
              have hok : (run_gens gs (w.root ++ "/include") (w.root ++ "/gensrc") pp data
                  (gen_entries w.cfg) (rmtreeF (w.root ++ "/gensrc") fs)).1 = Except.ok () := by
                rw [hrg]
              have hsnd : (run_gens gs (w.root ++ "/include") (w.root ++ "/gensrc") pp data
                  (gen_entries w.cfg) (rmtreeF (w.root ++ "/gensrc") fs)).2 = fs2 :=
                congrArg Prod.snd hrg
              simp only [Prod.mk.injEq, Except.ok.injEq] at h
              obtain ⟨-, hfs⟩ := h
              subst hfs
              rw [gen_names_map_dst]
              by_cases hmod : p = w.root ++ "/gensrc" ++ "/module.hpp"
              · subst hmod
                simp [writeF_at]
              · rw [writeF_ne _ _ hmod, ← hsnd]
                have hclear : rmtreeF (w.root ++ "/gensrc") fs p = none := by
                  simp [rmtreeF, hp]
                constructor
                · intro hsome
                  rcases run_gens_isSome_inv hsome with hm | hs
                  · exact List.mem_append_left _ hm
                  · rw [hclear] at hs
                    cases hs
                · intro hm
                  rcases List.mem_append.mp hm with hm1 | hm2
                  · exact run_gens_ok_isSome hok hm1
                  · simp at hm2
                    exact absurd hm2 hmod

theorem on_build_gen_outdir_files_witness :
    (((on_build_gen gs0 wpiutilW extWpiutil fsGen).2 "/proj/wpiutil/gensrc/wpiutil.cpp").isSome ↔
      "/proj/wpiutil/gensrc/wpiutil.cpp" ∈
        (gen_names wpiutilW.cfg).map (gen_dst (wpiutilW.root ++ "/gensrc")) ++
          [wpiutilW.root ++ "/gensrc" ++ "/module.hpp"]) ∧
    (((on_build_gen gs0 wpiutilW extWpiutil fsGen).2 "/proj/wpiutil/gensrc/stale.cpp").isSome ↔
      "/proj/wpiutil/gensrc/stale.cpp" ∈
        (gen_names wpiutilW.cfg).map (gen_dst (wpiutilW.root ++ "/gensrc")) ++
          [wpiutilW.root ++ "/gensrc" ++ "/module.hpp"]) ∧
    ((gen_names wpiutilW.cfg).map (gen_dst (wpiutilW.root ++ "/gensrc"))).Nodup := by
  have h1 : (on_build_gen gs0 wpiutilW extWpiutil fsGen).1 =
      Except.ok (Extension.mk "wpiutil.wpiutil"
        ["cpp/main.cpp", "/proj/wpiutil/gensrc/wpiutil.cpp"]
        ["/proj/wpiutil/include", "/rpb/include"] ["/proj/wpiutil/lib"]
        ["wpiutil"]) := rfl
  have h : on_build_gen gs0 wpiutilW extWpiutil fsGen =
      (Except.ok (Extension.mk "wpiutil.wpiutil"
        ["cpp/main.cpp", "/proj/wpiutil/gensrc/wpiutil.cpp"]
        ["/proj/wpiutil/include", "/rpb/include"] ["/proj/wpiutil/lib"]
        ["wpiutil"]), (on_build_gen gs0 wpiutilW extWpiutil fsGen).2) := by
    rw [← h1]
  have hmain := on_build_gen_outdir_files gs0 wpiutilW extWpiutil fsGen _ _
    (by decide) (by decide) h
  exact ⟨hmain.1 _ (by decide), hmain.1 _ (by decide), hmain.2⟩

/-! ## Determinism and frame lemmas for the pipeline -/

theorem writeF_det_of_base {p : String} (path c : String) {fs1 fs2 : FS}
    (h : fs1 p = fs2 p) : writeF path c fs1 p = writeF path c fs2 p := by
  by_cases hp : p = path <;> simp [writeF, hp, h]

theorem writeAll_det_of_base (files : List (String × String)) {p : String} {fs1 fs2 : FS}
    (h : fs1 p = fs2 p) : writeAll files fs1 p = writeAll files fs2 p := by
  by_cases hm : p ∈ files.map Prod.fst
  · exact writeAll_indep hm _ _
  · rw [writeAll_not_mem _ hm, writeAll_not_mem _ hm, h]

theorem unlinkF_none_of (x : String) (g : FS) (p : String)
    (h : g p = none ∨ p = x) : unlinkF x g p = none := by
  rcases h with h | h
  · by_cases hp : p = x <;> simp [unlinkF, hp, h]
  · simp [unlinkF, h]

theorem rmtreeF_none_of (d : String) (g : FS) (p : String)
    (h : g p = none ∨ underDir d p = true) : rmtreeF d g p = none := by
  rcases h with h | h
  · by_cases hp : underDir d p = true <;> simp [rmtreeF, hp, h]
  · simp [rmtreeF, h]

/-- After the four cleanup operations of `on_build_dl`, every path of the
download region is absent, whatever the initial file system. -/
theorem dl_base_none {w : Wrapper} {p : String} (fs : FS) (h : dl_region w p = true) :
    unlinkF (w.root ++ "/pkgcfg.py") (unlinkF (w.root ++ "/__init__.py")
      (rmtreeF (w.root ++ "/include") (rmtreeF (w.root ++ "/lib") fs))) p = none := by
  simp only [dl_region, Bool.or_eq_true, beq_iff_eq] at h
  rcases h with ((h | h) | h) | h
  · exact unlinkF_none_of _ _ _ (Or.inl (unlinkF_none_of _ _ _ (Or.inl
      (rmtreeF_none_of _ _ _ (Or.inl (rmtreeF_none_of _ _ _ (Or.inr h)))))))
  · exact unlinkF_none_of _ _ _ (Or.inl (unlinkF_none_of _ _ _ (Or.inl
      (rmtreeF_none_of _ _ _ (Or.inr h)))))
  · exact unlinkF_none_of _ _ _ (Or.inl (unlinkF_none_of _ _ _ (Or.inr h)))
  · exact unlinkF_none_of _ _ _ (Or.inr h)

theorem extract_map_targets {zip toMap : List (String × String)} {p : String}
    (h : p ∈ (toMap.filterMap
      (fun m => (List.lookup m.1 zip).map (fun c => (m.2, c)))).map Prod.fst) :
    p ∈ toMap.map Prod.snd := by
  simp only [List.mem_map, List.mem_filterMap] at h
  obtain ⟨x, ⟨m, hm, hf⟩, hx⟩ := h
  obtain ⟨c, -, hc⟩ := Option.map_eq_some'.mp hf
  exact List.mem_map.mpr ⟨m, hm, by rw [← hx, ← hc]⟩

theorem include_not_gensrc {r p : String} (h : underDir (r ++ "/include") p = true) :
    underDir (r ++ "/gensrc") p = false := by
  obtain ⟨t, ht⟩ := shape_of_include h
  exact not_gensrc_of_shape ht (by decide)

theorem dl_region_not_gensrc {w : Wrapper} {p : String} (h : dl_region w p = true) :
    underDir (w.root ++ "/gensrc") p = false := by
  simp only [dl_region, Bool.or_eq_true, beq_iff_eq] at h
  rcases h with ((h | h) | h) | h
  · obtain ⟨t, ht⟩ := shape_of_lib h
    exact not_gensrc_of_shape ht (by decide)
  · exact include_not_gensrc h
  · obtain ⟨t, ht⟩ := shape_of_initpy h
    exact not_gensrc_of_shape ht (by decide)
  · obtain ⟨t, ht⟩ := shape_of_pkgcfgpy h
    exact not_gensrc_of_shape ht (by decide)

theorem include_in_dl_region {w : Wrapper} {p : String}
    (h : underDir (w.root ++ "/include") p = true) : dl_region w p = true := by
  simp [dl_region, h]

/-- The download effect on the download region does not depend on the initial
file system. -/
theorem on_build_dl_fs_det (dl : String → List (String × String)) (w : Wrapper)
    (fs1 fs2 : FS) {p : String} (h : dl_region w p = true) :
    on_build_dl_fs dl w fs1 p = on_build_dl_fs dl w fs2 p := by
  simp only [on_build_dl_fs, extract_zip_all, extract_zip_map]
  apply writeAll_det_of_base
  apply writeAll_det_of_base
  rw [dl_base_none fs1 h, dl_base_none fs2 h]

/-- The download effect leaves paths outside the download region untouched. -/
theorem on_build_dl_fs_frame (dl : String → List (String × String)) (w : Wrapper)
    (fs : FS) {p : String} (h : dl_region w p = false) :
    on_build_dl_fs dl w fs p = fs p := by
  have h' := h
  simp only [dl_region, Bool.or_eq_false_iff] at h'
  obtain ⟨⟨⟨ha, hb⟩, hc⟩, hd⟩ := h'
  simp only [on_build_dl_fs, extract_zip_all, extract_zip_map]
  rw [writeAll_not_mem, writeAll_not_mem]
  · simp [unlinkF, rmtreeF, ha, hb, beq_eq_false_iff_ne.mp hc, beq_eq_false_iff_ne.mp hd]
  · intro hm
    simp only [List.map_map, List.mem_map, Function.comp] at hm
    obtain ⟨e, -, he⟩ := hm
    rw [← he, underDir_join] at hb
    cases hb
  · intro hm
    have h2 := extract_map_targets hm
    simp only [List.map_map, List.mem_map, Function.comp] at h2
    obtain ⟨ln, -, he⟩ := h2
    rw [← he, underDir_join] at ha
    cases ha

/-- Any file present in the download region after the download effect is one
of its extraction targets. -/
theorem on_build_dl_fs_isSome_inv (dl : String → List (String × String)) (w : Wrapper)
    (fs : FS) {p : String} (hreg : dl_region w p = true)
    (h : (on_build_dl_fs dl w fs p).isSome) :
    p ∈ (dl (dl_url w.cfg "headers")).map (fun e => w.root ++ "/include" ++ "/" ++ e.1) ∨
    p ∈ (libnames_of w).map (fun ln => w.root ++ "/lib" ++ "/" ++ ln) := by
  simp only [on_build_dl_fs, extract_zip_all, extract_zip_map] at h
  rcases writeAll_isSome_inv h with h2 | h1
  · right
    have h3 := extract_map_targets h2
    simpa [List.map_map, Function.comp] using h3
  · rcases writeAll_isSome_inv h1 with h0 | hbase
    · left
      simpa [List.map_map, Function.comp] using h0
    · rw [dl_base_none fs hreg] at hbase
      cases hbase

/-- The download step's outcome flag does not depend on the file system. -/
theorem on_build_dl_fst_eq (dl : String → List (String × String)) (w : Wrapper)
    (fs1 fs2 : FS) : (on_build_dl dl w fs1).1 = (on_build_dl dl w fs2).1 := by
  simp only [on_build_dl]
  cases hic : init_py_content w (libnames_of w) <;> rfl

/-- The download step is deterministic on the download region. -/
theorem on_build_dl_snd_det (dl : String → List (String × String)) (w : Wrapper)
    (fs1 fs2 : FS) {p : String} (h : dl_region w p = true) :
    (on_build_dl dl w fs1).2 p = (on_build_dl dl w fs2).2 p := by
  simp only [on_build_dl]
  cases hic : init_py_content w (libnames_of w) with
  | error e =>
    exact on_build_dl_fs_det dl w fs1 fs2 h
  | ok c =>
    apply writeF_det_of_base
    apply writeF_det_of_base
    exact on_build_dl_fs_det dl w fs1 fs2 h

/-- The download step leaves paths outside the download region untouched. -/
theorem on_build_dl_snd_frame (dl : String → List (String × String)) (w : Wrapper)
    (fs : FS) {p : String} (h : dl_region w p = false) :
    (on_build_dl dl w fs).2 p = fs p := by
  have h' := h
  simp only [dl_region, Bool.or_eq_false_iff] at h'
  obtain ⟨⟨⟨-, -⟩, hc⟩, hd⟩ := h'
  simp only [on_build_dl]
  cases hic : init_py_content w (libnames_of w) with
  | error e =>
    exact on_build_dl_fs_frame dl w fs h
  | ok c =>
    dsimp only
    rw [writeF_ne _ _ (beq_eq_false_iff_ne.mp hd), writeF_ne _ _ (beq_eq_false_iff_ne.mp hc)]
    exact on_build_dl_fs_frame dl w fs h

/-- Any file present in the download region after the download step is one of
the step's outputs. -/
theorem on_build_dl_isSome_inv (dl : String → List (String × String)) (w : Wrapper)
    (fs : FS) {p : String} (hreg : dl_region w p = true)
    (h : ((on_build_dl dl w fs).2 p).isSome) :
    p ∈ (dl (dl_url w.cfg "headers")).map (fun e => w.root ++ "/include" ++ "/" ++ e.1) ∨
    p ∈ (libnames_of w).map (fun ln => w.root ++ "/lib" ++ "/" ++ ln) ∨
    p = w.root ++ "/__init__.py" ∨ p = w.root ++ "/pkgcfg.py" := by
  simp only [on_build_dl] at h
  cases hic : init_py_content w (libnames_of w) with
  | error e =>
    simp only [hic] at h
    rcases on_build_dl_fs_isSome_inv dl w fs hreg h with h1 | h2
    · exact Or.inl h1
    · exact Or.inr (Or.inl h2)
  | ok c =>
    simp only [hic] at h
    by_cases hp2 : p = w.root ++ "/pkgcfg.py"
    · exact Or.inr (Or.inr (Or.inr hp2))
    · rw [writeF_ne _ _ hp2] at h
      by_cases hp1 : p = w.root ++ "/__init__.py"
      · exact Or.inr (Or.inr (Or.inl hp1))
      · rw [writeF_ne _ _ hp1] at h
        rcases on_build_dl_fs_isSome_inv dl w fs hreg h with h1 | h2
        · exact Or.inl h1
        · exact Or.inr (Or.inl h2)

/-- The per-entry generation loop is deterministic given agreement on the
header (`include/`) and output (`gensrc/`) regions. -/
theorem run_gens_det (gs : GenInput → String) {incdir outdir : String}
    (pp : List String) (data : String) (es : List (String × String)) (f1 f2 : FS)
    (hag : ∀ p, underDir incdir p = true ∨ underDir outdir p = true → f1 p = f2 p) :
    (run_gens gs incdir outdir pp data es f1).1 =
      (run_gens gs incdir outdir pp data es f2).1 ∧
    ∀ p, underDir incdir p = true ∨ underDir outdir p = true →
      (run_gens gs incdir outdir pp data es f1).2 p =
        (run_gens gs incdir outdir pp data es f2).2 p := by
  induction es generalizing f1 f2 with
  | nil => exact ⟨rfl, hag⟩
  | cons e es ih =>
    have hhdr : f1 (incdir ++ "/" ++ e.2) = f2 (incdir ++ "/" ++ e.2) :=
      hag _ (Or.inl (underDir_join _ _))
    cases hh : f1 (incdir ++ "/" ++ e.2) with
    | none =>
      have hh2 : f2 (incdir ++ "/" ++ e.2) = none := by rw [← hhdr, hh]
      constructor
      · simp [run_gens, hh, hh2]
      · intro p hp
        simp only [run_gens, hh, hh2]
        exact hag p hp
    | some hc =>
      have hh2 : f2 (incdir ++ "/" ++ e.2) = some hc := by rw [← hhdr, hh]
      have hag2 : ∀ p, underDir incdir p = true ∨ underDir outdir p = true →
          writeF (gen_dst outdir e.1) (gs ⟨incdir ++ "/" ++ e.2, hc, pp, e.1, data⟩) f1 p =
          writeF (gen_dst outdir e.1) (gs ⟨incdir ++ "/" ++ e.2, hc, pp, e.1, data⟩) f2 p :=
        fun p hp => writeF_det_of_base _ _ (hag p hp)
      obtain ⟨ha, hb⟩ := ih _ _ hag2
      constructor
      · simp only [run_gens, hh, hh2]
        exact ha
      · intro p hp
        simp only [run_gens, hh, hh2]
        exact hb p hp

/-- Reading the data overlay yields the same result on file systems agreeing
at the overlay path. -/
theorem read_generation_data_congr (w : Wrapper) {f1 f2 : FS}
    (hdf : ∀ df, datafile_path w = some df → f1 df = f2 df) :
    read_generation_data w f1 = read_generation_data w f2 := by
  unfold read_generation_data
  cases hdp : datafile_path w with
  | none => rfl
  | some df =>
    show (match f1 df with
      | none => Except.error ("missing generation data file: " ++ df)
      | some c => Except.ok c) =
      (match f2 df with
      | none => Except.error ("missing generation data file: " ++ df)
      | some c => Except.ok c)
    rw [hdf df hdp]

/-- Inversion of a successful generation step: the intermediate results of
every stage, the produced extension, and the final file system shape. -/
theorem on_build_gen_ok_spec {gs : GenInput → String} {w : Wrapper} {ext : Extension}
    {fs : FS} {x : Extension} {fs' : FS}
    (hne : w.cfg.generate ≠ [])
    (h : on_build_gen gs w ext fs = (Except.ok x, fs')) :
    ∃ pp data incs libdirs libs,
      all_includes w false = Except.ok pp ∧
      read_generation_data w (rmtreeF (w.root ++ "/gensrc") fs) = Except.ok data ∧
      (run_gens gs (w.root ++ "/include") (w.root ++ "/gensrc") pp data (gen_entries w.cfg)
        (rmtreeF (w.root ++ "/gensrc") fs)).1 = Except.ok () ∧
      all_includes w true = Except.ok incs ∧
      all_library_dirs w = Except.ok libdirs ∧
      all_library_names w = Except.ok libs ∧
      x = Extension.mk ext.name
        (w.cfg.sources ++ (gen_entries w.cfg).map (fun e => gen_dst (w.root ++ "/gensrc") e.1))
        incs libdirs libs ∧
      fs' = writeF (w.root ++ "/gensrc" ++ "/module.hpp") (module_inl_content w.cfg)
        (run_gens gs (w.root ++ "/include") (w.root ++ "/gensrc") pp data (gen_entries w.cfg)
          (rmtreeF (w.root ++ "/gensrc") fs)).2 := by
  simp only [on_build_gen] at h
  rw [if_neg hne] at h
  split at h
  · simp at h
  · rename_i pp hai
    split at h
    · simp at h
    · rename_i data hrd
      split at h
      · simp at h
      · rename_i u fs2 hrg
        split at h
        · simp at h
        · rename_i incs hai2
          split at h
          · simp at h
          · rename_i libdirs hld
            split at h
            · simp at h
            · rename_i libs hln
              simp only [Prod.mk.injEq, Except.ok.injEq] at h
              obtain ⟨hx, hfs⟩ := h
              refine ⟨pp, data, incs, libdirs, libs, hai, hrd, ?_, hai2, hld, hln,
                hx.symm, ?_⟩
              · rw [hrg]
              · rw [← hfs, congrArg Prod.snd hrg]

/-- Forward construction of a successful generation step from the success of
each stage. -/
theorem on_build_gen_mk (gs : GenInput → String) (w : Wrapper) (ext : Extension) (fs : FS)
    {pp : List String} {data : String} {incs libdirs libs : List String}
    (hne : w.cfg.generate ≠ [])
    (hai : all_includes w false = Except.ok pp)
    (hrd : read_generation_data w (rmtreeF (w.root ++ "/gensrc") fs) = Except.ok data)
    (hrun : (run_gens gs (w.root ++ "/include") (w.root ++ "/gensrc") pp data
      (gen_entries w.cfg) (rmtreeF (w.root ++ "/gensrc") fs)).1 = Except.ok ())
    (hai2 : all_includes w true = Except.ok incs)
    (hld : all_library_dirs w = Except.ok libdirs)
    (hln : all_library_names w = Except.ok libs) :
    on_build_gen gs w ext fs =
      (Except.ok (Extension.mk ext.name
        (w.cfg.sources ++ (gen_entries w.cfg).map (fun e => gen_dst (w.root ++ "/gensrc") e.1))
        incs libdirs libs),
       writeF (w.root ++ "/gensrc" ++ "/module.hpp") (module_inl_content w.cfg)
        (run_gens gs (w.root ++ "/include") (w.root ++ "/gensrc") pp data
          (gen_entries w.cfg) (rmtreeF (w.root ++ "/gensrc") fs)).2) := by
  have hpair : run_gens gs (w.root ++ "/include") (w.root ++ "/gensrc") pp data
      (gen_entries w.cfg) (rmtreeF (w.root ++ "/gensrc") fs) =
      (Except.ok (), (run_gens gs (w.root ++ "/include") (w.root ++ "/gensrc") pp data
        (gen_entries w.cfg) (rmtreeF (w.root ++ "/gensrc") fs)).2) := by
    rw [← hrun]
  simp only [on_build_gen, if_neg hne, hai, hrd]
  rw [hpair]
  simp only [hai2, hld, hln]

/-- C5 (amended): for a package with a non-empty generation manifest, the
fetch-then-generate pipeline's outcome and its effect on the whole output
region (lib, include, gensrc, and the generated descriptor files) are
functions of the inputs alone — two runs from any two starting file systems
agreeing at the data-overlay path succeed or fail together, produce the same
extension, and leave byte-identical output regions; moreover every file
present in the output region after a successful run is one of the run's own
outputs, so no file from a prior run with a different module set survives. -/
theorem build_steps_idempotent (dl : String → List (String × String)) (gs : GenInput → String)
    (w : Wrapper) (ext : Extension) (fs1 fs2 : FS)
    (hne : w.cfg.generate ≠ [])
    (hdf : ∀ df, datafile_path w = some df → fs1 df = fs2 df) :
    (∀ x, (build_steps dl gs w ext fs1).1 = Except.ok x ↔
          (build_steps dl gs w ext fs2).1 = Except.ok x) ∧
    (∀ x, (build_steps dl gs w ext fs1).1 = Except.ok x →
      ∀ p, output_region w p = true →
        (build_steps dl gs w ext fs1).2 p = (build_steps dl gs w ext fs2).2 p ∧
        (((build_steps dl gs w ext fs1).2 p).isSome → p ∈ expected_outputs dl w)) := by
  have hfst := on_build_dl_fst_eq dl w fs1 fs2
  cases hd1 : on_build_dl dl w fs1 with
  | mk r1 g1 =>
  cases hd2 : on_build_dl dl w fs2 with
  | mk r2 g2 =>
  have hr12 : r1 = r2 := by
    rw [hd1, hd2] at hfst
    exact hfst
  subst hr12
  cases r1 with
  | error e =>
    have hb1 : build_steps dl gs w ext fs1 = (Except.error e, g1) := by
      simp only [build_steps, hd1]
    have hb2 : build_steps dl gs w ext fs2 = (Except.error e, g2) := by
      simp only [build_steps, hd2]
    constructor
    · intro x
      rw [hb1, hb2]
    · intro x hx
      rw [hb1] at hx
      simp at hx
  | ok u =>
    have hb1 : build_steps dl gs w ext fs1 = on_build_gen gs w ext g1 := by
      simp only [build_steps, hd1]
    have hb2 : build_steps dl gs w ext fs2 = on_build_gen gs w ext g2 := by
      simp only [build_steps, hd2]
    have hgdet : ∀ p, dl_region w p = true → g1 p = g2 p := by
      intro p hp
      have hq := @on_build_dl_snd_det dl w fs1 fs2 p hp
      rw [hd1, hd2] at hq
      exact hq
    have hgframe1 : ∀ p, dl_region w p = false → g1 p = fs1 p := by
      intro p hp
      have hq := @on_build_dl_snd_frame dl w fs1 p hp
      rw [hd1] at hq
      exact hq
    have hgframe2 : ∀ p, dl_region w p = false → g2 p = fs2 p := by
      intro p hp
      have hq := @on_build_dl_snd_frame dl w fs2 p hp
      rw [hd2] at hq
      exact hq
    have hdf2 : ∀ df, datafile_path w = some df → g1 df = g2 df := by
      intro df hdp
      by_cases hreg : dl_region w df = true
      · exact hgdet df hreg
      · have hreg' : dl_region w df = false := by simpa using hreg
        rw [hgframe1 df hreg', hgframe2 df hreg']
        exact hdf df hdp
    have hinc : ∀ p, underDir (w.root ++ "/include") p = true → g1 p = g2 p :=
      fun p hp => hgdet p (include_in_dl_region hp)
    have hrag : ∀ p, underDir (w.root ++ "/include") p = true ∨
        underDir (w.root ++ "/gensrc") p = true →
        rmtreeF (w.root ++ "/gensrc") g1 p = rmtreeF (w.root ++ "/gensrc") g2 p := by
      intro p hp
      rcases hp with hp | hp
      · have hng := include_not_gensrc hp
        simp [rmtreeF, hng, hinc p hp]
      · simp [rmtreeF, hp]
    have hrag2 : ∀ p, underDir (w.root ++ "/include") p = true ∨
        underDir (w.root ++ "/gensrc") p = true →
        rmtreeF (w.root ++ "/gensrc") g2 p = rmtreeF (w.root ++ "/gensrc") g1 p :=
      fun p hp => (hrag p hp).symm
    have hrdeq : read_generation_data w (rmtreeF (w.root ++ "/gensrc") g1) =
        read_generation_data w (rmtreeF (w.root ++ "/gensrc") g2) := by
      apply read_generation_data_congr
      intro df hdp
      by_cases hu : underDir (w.root ++ "/gensrc") df = true
      · simp [rmtreeF, hu]
      · have hu' : underDir (w.root ++ "/gensrc") df = false := by simpa using hu
        simp [rmtreeF, hu', hdf2 df hdp]
    constructor
    · intro x
      rw [hb1, hb2]
      constructor
      · intro hx1
        have hpair1 : on_build_gen gs w ext g1 = (Except.ok x, (on_build_gen gs w ext g1).2) := by
          rw [← hx1]
        obtain ⟨pp, data, incs, libdirs, libs, hai, hrd1, hrun1, hai2, hld, hln, hxval, -⟩ :=
          on_build_gen_ok_spec hne hpair1
        have hrd2 : read_generation_data w (rmtreeF (w.root ++ "/gensrc") g2) =
            Except.ok data := by
          rw [← hrdeq]
          exact hrd1
        have hdet := run_gens_det gs pp data (gen_entries w.cfg) _ _ hrag
        have hrun2 : (run_gens gs (w.root ++ "/include") (w.root ++ "/gensrc") pp data
            (gen_entries w.cfg) (rmtreeF (w.root ++ "/gensrc") g2)).1 = Except.ok () := by
          rw [← hdet.1]
          exact hrun1
        rw [on_build_gen_mk gs w ext g2 hne hai hrd2 hrun2 hai2 hld hln, hxval]
      · intro hx2
        have hpair2 : on_build_gen gs w ext g2 = (Except.ok x, (on_build_gen gs w ext g2).2) := by
          rw [← hx2]
        obtain ⟨pp, data, incs, libdirs, libs, hai, hrd2, hrun2, hai2, hld, hln, hxval, -⟩ :=
          on_build_gen_ok_spec hne hpair2
        have hrd1 : read_generation_data w (rmtreeF (w.root ++ "/gensrc") g1) =
            Except.ok data := by
          rw [hrdeq]
          exact hrd2
        have hdet := run_gens_det gs pp data (gen_entries w.cfg) _ _ hrag2
        have hrun1 : (run_gens gs (w.root ++ "/include") (w.root ++ "/gensrc") pp data
            (gen_entries w.cfg) (rmtreeF (w.root ++ "/gensrc") g1)).1 = Except.ok () := by
          rw [← hdet.1]
          exact hrun2
        rw [on_build_gen_mk gs w ext g1 hne hai hrd1 hrun1 hai2 hld hln, hxval]
    · intro x hx1 p hpreg
      rw [hb1] at hx1
      rw [hb1, hb2]
      have hpair1 : on_build_gen gs w ext g1 = (Except.ok x, (on_build_gen gs w ext g1).2) := by
        rw [← hx1]
      obtain ⟨pp, data, incs, libdirs, libs, hai, hrd1, hrun1, hai2, hld, hln, -, hfs1eq⟩ :=
        on_build_gen_ok_spec hne hpair1
      have hrd2 : read_generation_data w (rmtreeF (w.root ++ "/gensrc") g2) =
          Except.ok data := by
        rw [← hrdeq]
        exact hrd1
      have hdet := run_gens_det gs pp data (gen_entries w.cfg) _ _ hrag
      have hrun2 : (run_gens gs (w.root ++ "/include") (w.root ++ "/gensrc") pp data
          (gen_entries w.cfg) (rmtreeF (w.root ++ "/gensrc") g2)).1 = Except.ok () := by
        rw [← hdet.1]
        exact hrun1
      have hfull2 := on_build_gen_mk gs w ext g2 hne hai hrd2 hrun2 hai2 hld hln
      have hfull2snd : (on_build_gen gs w ext g2).2 =
          writeF (w.root ++ "/gensrc" ++ "/module.hpp") (module_inl_content w.cfg)
            (run_gens gs (w.root ++ "/include") (w.root ++ "/gensrc") pp data
              (gen_entries w.cfg) (rmtreeF (w.root ++ "/gensrc") g2)).2 := by
        rw [hfull2]
      simp only [output_region, Bool.or_eq_true] at hpreg
      constructor
      · rw [hfs1eq, hfull2snd]
        by_cases hmod : p = w.root ++ "/gensrc" ++ "/module.hpp"
        · simp [writeF, hmod]
        · rw [writeF_ne _ _ hmod, writeF_ne _ _ hmod]
          rcases hpreg with hdl | hgs
          · have hng := dl_region_not_gensrc hdl
            have hnotd : p ∉ (gen_entries w.cfg).map
                (fun e => gen_dst (w.root ++ "/gensrc") e.1) := by
              intro hm
              obtain ⟨e2, -, he⟩ := List.mem_map.mp hm
              rw [← he, underDir_gen_dst] at hng
              cases hng
            rw [run_gens_frame _ _ hnotd, run_gens_frame _ _ hnotd]
            simp [rmtreeF, hng, hgdet p hdl]
          · exact hdet.2 p (Or.inr hgs)
      · intro hsome
        rw [hfs1eq] at hsome
        rcases hpreg with hdl | hgs
        · have hng := dl_region_not_gensrc hdl
          have hmod : p ≠ w.root ++ "/gensrc" ++ "/module.hpp" := by
            intro he
            rw [he, underDir_module_hpp] at hng
            cases hng
          rw [writeF_ne _ _ hmod] at hsome
          have hnotd : p ∉ (gen_entries w.cfg).map
              (fun e => gen_dst (w.root ++ "/gensrc") e.1) := by
            intro hm
            obtain ⟨e2, -, he⟩ := List.mem_map.mp hm
            rw [← he, underDir_gen_dst] at hng
            cases hng
          rw [run_gens_frame _ _ hnotd] at hsome
          have hsome2 : (g1 p).isSome := by
            rw [rmtreeF] at hsome
            simpa [hng] using hsome
          have hsome3 : ((on_build_dl dl w fs1).2 p).isSome := by
            rw [hd1]
            exact hsome2
          rcases on_build_dl_isSome_inv dl w fs1 hdl hsome3 with h1 | h2 | h3 | h4
          · simp only [expected_outputs, List.mem_append]
            exact Or.inl (Or.inl (Or.inl (Or.inl h1)))
          · simp only [expected_outputs, List.mem_append]
            exact Or.inl (Or.inl (Or.inl (Or.inr h2)))
          · simp only [expected_outputs, List.mem_append]
            exact Or.inl (Or.inl (Or.inr (by simp [h3])))
          · simp only [expected_outputs, List.mem_append]
            exact Or.inl (Or.inl (Or.inr (by simp [h4])))
        · by_cases hmod : p = w.root ++ "/gensrc" ++ "/module.hpp"
          · simp only [expected_outputs, List.mem_append]
            exact Or.inr (by simp [hmod])
          · rw [writeF_ne _ _ hmod] at hsome
            rcases run_gens_isSome_inv hsome with hm | hbase
            · simp only [expected_outputs, List.mem_append]
              refine Or.inl (Or.inr ?_)
              rw [gen_names_map_dst]
              exact hm
            · rw [rmtreeF] at hbase
              simp [hgs] at hbase

/-- C5 as stated is false: a prior run with module set `{wpiutil}` produces
`gensrc/wpiutil.cpp`; a subsequent successful fetch-and-generation run whose
module set is empty leaves that file in place, because `gensrc/` is only
removed when generation entries are present. -/
theorem build_steps_stale_counterexample :
    (build_steps dlH gs0 wpiutilW extWpiutil fsGen).2 "/proj/wpiutil/gensrc/wpiutil.cpp" =
      some "// generated module wpiutil\n" ∧
    (build_steps dlH gs0 wpiutilNoGenW extWpiutil fsPrior).1 = Except.ok extWpiutil ∧
    (build_steps dlH gs0 wpiutilNoGenW extWpiutil fsPrior).2
        "/proj/wpiutil/gensrc/wpiutil.cpp" =
      some "// generated module wpiutil\n" :=
  ⟨rfl, rfl, rfl⟩

theorem build_steps_idempotent_witness :
    ((build_steps dlH gs0 wpiutilW extWpiutil fsGen).1 =
        Except.ok (Extension.mk "wpiutil.wpiutil"
          ["cpp/main.cpp", "/proj/wpiutil/gensrc/wpiutil.cpp"]
          ["/proj/wpiutil/include", "/rpb/include"] ["/proj/wpiutil/lib"] ["wpiutil"]) ↔
      (build_steps dlH gs0 wpiutilW extWpiutil fsGenB).1 =
        Except.ok (Extension.mk "wpiutil.wpiutil"
          ["cpp/main.cpp", "/proj/wpiutil/gensrc/wpiutil.cpp"]
          ["/proj/wpiutil/include", "/rpb/include"] ["/proj/wpiutil/lib"] ["wpiutil"])) ∧
    (build_steps dlH gs0 wpiutilW extWpiutil fsGen).2 "/proj/wpiutil/gensrc/old.cpp" =
      (build_steps dlH gs0 wpiutilW extWpiutil fsGenB).2 "/proj/wpiutil/gensrc/old.cpp" ∧
    (((build_steps dlH gs0 wpiutilW extWpiutil fsGen).2 "/proj/wpiutil/gensrc/old.cpp").isSome →
      "/proj/wpiutil/gensrc/old.cpp" ∈ expected_outputs dlH wpiutilW) := by
  have hdfp : ∀ df, datafile_path wpiutilW = some df → fsGen df = fsGenB df := by
    intro df hdp
    have h0 : datafile_path wpiutilW = some ("/proj" ++ "/" ++ "gen/wpiutil.yml") := rfl
    rw [h0] at hdp
    injection hdp with h1
    subst h1
    rfl
  have h := build_steps_idempotent dlH gs0 wpiutilW extWpiutil fsGen fsGenB (by decide) hdfp
  have h2 := h.2 _ (by rfl) "/proj/wpiutil/gensrc/old.cpp" (by decide)
  exact ⟨h.1 _, h2.1, h2.2⟩

end RobotpyBuild
